import Mathlib

/-!
Verification of the acquisition-and-analysis pipeline of `src/main.py`
(class `GitHubAnalyzer`): repository discovery, archive download with
branch fallback, selective extraction, CK result aggregation,
incremental CSV persistence, and temporary-resource cleanup.

Each Python function is shallowly embedded as an executable Lean
definition; effects (filesystem scratch state, HTTP responses, raised
exceptions) are made explicit as arguments and result components.
Numeric metric values (Python floats holding CK's integer metrics) are
modelled as rationals.
-/

namespace CkPipeline

/-! ## Result aggregation: `parse_ck_results_from_temp` (main.py 473-530)

The CK tool writes `class.csv` into the temp directory: a header row
plus one row per analyzed class.  The Python code reads it with
`csv.DictReader` and for each row evaluates `float(c.get(col, 0))` for
the columns `cbo`, `lcom`, `dit`, `loc`.  A cell is therefore one of:
the column is absent from the row (`get` yields the default `0`), the
cell holds a string parsing as a float, or the cell holds a string that
does not parse (then `float` raises `ValueError`, caught by the outer
`except`, which returns `None`). -/

/-- One cell of the class-level table, for one of the metric columns:
`absent` = the column is missing from the row (`dict.get` default 0),
`num q` = the cell parses as the float `q`, `bad` = the cell does not
parse as a float (`float(...)` raises). -/
inductive CkCell where
  | absent : CkCell
  | num : ℚ → CkCell
  | bad : CkCell
deriving DecidableEq

/-- One data row of `class.csv`, restricted to the columns the
aggregator reads. -/
structure CkRow where
  cbo : CkCell
  lcom : CkCell
  dit : CkCell
  loc : CkCell
deriving DecidableEq

/-- The metrics dictionary built by `parse_ck_results_from_temp`
(main.py 489-502), with the same fields in the same roles. -/
structure QualityMetrics where
  total_classes : ℕ
  total_methods : ℕ
  total_fields : ℕ
  total_variables : ℕ
  avg_wmc : ℚ
  cbo : ℚ
  lcom : ℚ
  dit : ℚ
  avg_noc : ℚ
  avg_rfc : ℚ
  loc : ℚ
  avg_cc : ℚ
deriving DecidableEq

/-- The initial all-zero metrics dictionary (main.py 489-502). -/
def zeroMetrics : QualityMetrics :=
  ⟨0, 0, 0, 0, 0, 0, 0, 0, 0, 0, 0, 0⟩

/-- `float(c.get(col, 0))` on one cell: `some` the value, or `none`
when the conversion raises. -/
def cellFloat : CkCell → Option ℚ
  | CkCell.absent => some 0
  | CkCell.num q => some q
  | CkCell.bad => none

/-- Add one conversion result to a partial sum; `none` (a raised
exception) is absorbing. -/
def addOpt : Option ℚ → Option ℚ → Option ℚ
  | some q, some s => some (q + s)
  | _, _ => none

/-- `sum(float(...) for c in classes)`: `some` of the total, or `none`
as soon as one conversion raises. -/
def sumFloats : List (Option ℚ) → Option ℚ
  | [] => some 0
  | o :: os => addOpt o (sumFloats os)

/-- The value a well-parsed cell contributes to a column sum (the
`bad` case is arbitrary; it only arises when the Python code raises). -/
def cellVal (c : CkCell) : ℚ :=
  (cellFloat c).getD 0

/-- `parse_ck_results_from_temp` (main.py 485-530), as a function of the
content of `class.csv`: `none` for "the file does not exist", otherwise
the list of data rows.  Returns the metrics record, or `none` when the
Python code raises and the `except` branch returns `None`.  (The
deletion of the generated CSV files, performed on both paths, is a
filesystem effect outside this value-level embedding.) -/
def parse_ck_results_from_temp (classCsv : Option (List CkRow)) :
    Option QualityMetrics :=
  match classCsv with
  | none => some zeroMetrics
  | some classes =>
    let base := { zeroMetrics with total_classes := classes.length }
    if classes.isEmpty then some base
    else
      match sumFloats (classes.map fun c => cellFloat c.cbo),
            sumFloats (classes.map fun c => cellFloat c.lcom),
            sumFloats (classes.map fun c => cellFloat c.dit),
            sumFloats (classes.map fun c => cellFloat c.loc) with
      | some cb, some lc, some di, some lo =>
        some { base with cbo := cb, lcom := lc, dit := di, loc := lo }
      | _, _, _, _ => none

/-- A table is malformed when some row has a metric cell that does not
parse as a float. -/
def hasBadCell (rows : List CkRow) : Bool :=
  rows.any fun r =>
    r.cbo == CkCell.bad || r.lcom == CkCell.bad ||
    r.dit == CkCell.bad || r.loc == CkCell.bad

theorem sumFloats_eq_sum (os : List (Option ℚ)) (s : ℚ)
    (h : sumFloats os = some s) :
    s = (os.map fun o => o.getD 0).sum := by
  induction os generalizing s with
  | nil => simp [sumFloats] at h; simp [h]
  | cons o os ih =>
    simp only [sumFloats] at h
    cases ho : o with
    | none => rw [ho] at h; exact absurd h (by simp [addOpt])
    | some q =>
      rw [ho] at h
      cases hs : sumFloats os with
      | none => rw [hs] at h; exact absurd h (by simp [addOpt])
      | some t =>
        rw [hs] at h
        simp only [addOpt, Option.some.injEq] at h
        subst h
        simp [ho, ih t hs]

theorem sumFloats_none_of_mem (os : List (Option ℚ))
    (h : none ∈ os) : sumFloats os = none := by
  induction os with
  | nil => cases h
  | cons o os ih =>
    simp only [List.mem_cons] at h
    cases h with
    | inl h => subst h; simp [sumFloats, addOpt]
    | inr h =>
      simp only [sumFloats, ih h]
      cases o <;> simp [addOpt]

/-- Claim C1: for every successful analysis run whose class-level output
table exists, the aggregated QualityMetrics record has `total_classes`
equal to the number of data rows (header excluded), and its `cbo`,
`lcom`, `dit`, `loc` fields equal the sums (not averages) of the
corresponding per-class column values across all rows of the table. -/
theorem c1_aggregator_row_count_and_sums (rows : List CkRow)
    (m : QualityMetrics)
    (h : parse_ck_results_from_temp (some rows) = some m) :
    m.total_classes = rows.length ∧
    m.cbo = (rows.map fun r => cellVal r.cbo).sum ∧
    m.lcom = (rows.map fun r => cellVal r.lcom).sum ∧
    m.dit = (rows.map fun r => cellVal r.dit).sum ∧
    m.loc = (rows.map fun r => cellVal r.loc).sum := by
  simp only [parse_ck_results_from_temp] at h
  split at h
  · rename_i he
    have hnil : rows = [] := List.isEmpty_iff.mp he
    subst hnil
    simp only [Option.some.injEq] at h
    subst h
    simp [zeroMetrics]
  · split at h
    · rename_i cb lc di lo hcb hlc hdi hlo
      simp only [Option.some.injEq] at h
      subst h
      refine ⟨rfl, ?_, ?_, ?_, ?_⟩
      · rw [sumFloats_eq_sum _ _ hcb]; simp only [List.map_map]; rfl
      · rw [sumFloats_eq_sum _ _ hlc]; simp only [List.map_map]; rfl
      · rw [sumFloats_eq_sum _ _ hdi]; simp only [List.map_map]; rfl
      · rw [sumFloats_eq_sum _ _ hlo]; simp only [List.map_map]; rfl
    · exact absurd h (by simp)

/-- Witness for C1 at a one-row table with cbo=1, lcom=2, dit=3, loc=4. -/
theorem c1_aggregator_row_count_and_sums_witness :
    (⟨1, 0, 0, 0, 0, 1, 2, 3, 0, 0, 4, 0⟩ : QualityMetrics).total_classes =
      ([⟨CkCell.num 1, CkCell.num 2, CkCell.num 3, CkCell.num 4⟩] : List CkRow).length ∧
    (⟨1, 0, 0, 0, 0, 1, 2, 3, 0, 0, 4, 0⟩ : QualityMetrics).cbo =
      (([⟨CkCell.num 1, CkCell.num 2, CkCell.num 3, CkCell.num 4⟩] : List CkRow).map fun r => cellVal r.cbo).sum ∧
    (⟨1, 0, 0, 0, 0, 1, 2, 3, 0, 0, 4, 0⟩ : QualityMetrics).lcom =
      (([⟨CkCell.num 1, CkCell.num 2, CkCell.num 3, CkCell.num 4⟩] : List CkRow).map fun r => cellVal r.lcom).sum ∧
    (⟨1, 0, 0, 0, 0, 1, 2, 3, 0, 0, 4, 0⟩ : QualityMetrics).dit =
      (([⟨CkCell.num 1, CkCell.num 2, CkCell.num 3, CkCell.num 4⟩] : List CkRow).map fun r => cellVal r.dit).sum ∧
    (⟨1, 0, 0, 0, 0, 1, 2, 3, 0, 0, 4, 0⟩ : QualityMetrics).loc =
      (([⟨CkCell.num 1, CkCell.num 2, CkCell.num 3, CkCell.num 4⟩] : List CkRow).map fun r => cellVal r.loc).sum :=
  c1_aggregator_row_count_and_sums _ _
    (by norm_num [parse_ck_results_from_temp, sumFloats, addOpt, cellFloat,
      zeroMetrics])

/-- Counterexample for C5: a table that exists but is malformed (its
single row's `cbo` cell does not parse as a float) makes the aggregator
return `None` — the repository fails — rather than an all-zero record. -/
theorem c5_malformed_returns_none_counterexample :
    parse_ck_results_from_temp
      (some [⟨CkCell.bad, CkCell.num 0, CkCell.num 0, CkCell.num 0⟩]) = none := by
  simp [parse_ck_results_from_temp, sumFloats, addOpt, cellFloat]

/-- Claim C5 (amended): if the output table is absent the aggregator
returns the all-zero QualityMetrics record; if the table is malformed
(a metric cell fails float conversion) it returns no record at all, so
the repository fails; a returned record is computed solely from the
current table's rows, never left partially populated. -/
theorem c5_absent_zero_malformed_none (rows : List CkRow) :
    parse_ck_results_from_temp none = some zeroMetrics ∧
    (hasBadCell rows = true → parse_ck_results_from_temp (some rows) = none) := by
  refine ⟨rfl, fun hb => ?_⟩
  simp only [hasBadCell, List.any_eq_true, Bool.or_eq_true, beq_iff_eq] at hb
  obtain ⟨r, hr, hcell⟩ := hb
  have hne : rows.isEmpty = false := by
    cases rows with
    | nil => cases hr
    | cons a l => rfl
  simp only [parse_ck_results_from_temp, hne, Bool.false_eq_true, if_false]
  split
  · rename_i cb lc di lo hcb hlc hdi hlo
    rcases hcell with ((h | h) | h) | h
    · rw [sumFloats_none_of_mem _
        (List.mem_map.mpr ⟨r, hr, by rw [h]; rfl⟩)] at hcb
      cases hcb
    · rw [sumFloats_none_of_mem _
        (List.mem_map.mpr ⟨r, hr, by rw [h]; rfl⟩)] at hlc
      cases hlc
    · rw [sumFloats_none_of_mem _
        (List.mem_map.mpr ⟨r, hr, by rw [h]; rfl⟩)] at hdi
      cases hdi
    · rw [sumFloats_none_of_mem _
        (List.mem_map.mpr ⟨r, hr, by rw [h]; rfl⟩)] at hlo
      cases hlo
  · rfl

/-- Witness for C5 (amended) at a one-row table whose `dit` cell is
unparseable. -/
theorem c5_absent_zero_malformed_none_witness :
    hasBadCell [⟨CkCell.num 1, CkCell.num 1, CkCell.bad, CkCell.num 1⟩] = true ∧
    parse_ck_results_from_temp
      (some [⟨CkCell.num 1, CkCell.num 1, CkCell.bad, CkCell.num 1⟩]) = none :=
  ⟨by decide,
    (c5_absent_zero_malformed_none
      [⟨CkCell.num 1, CkCell.num 1, CkCell.bad, CkCell.num 1⟩]).2 (by decide)⟩

/-- Claim C9: whatever the content of the class-level table, the fields
`total_methods`, `total_fields`, `total_variables`, `avg_wmc`,
`avg_noc`, `avg_rfc`, `avg_cc` of a returned QualityMetrics record are
always zero: the aggregator never populates these placeholder fields. -/
theorem c9_placeholder_fields_zero (t : Option (List CkRow))
    (m : QualityMetrics) (h : parse_ck_results_from_temp t = some m) :
    m.total_methods = 0 ∧ m.total_fields = 0 ∧ m.total_variables = 0 ∧
    m.avg_wmc = 0 ∧ m.avg_noc = 0 ∧ m.avg_rfc = 0 ∧ m.avg_cc = 0 := by
  cases t with
  | none =>
    simp only [parse_ck_results_from_temp, Option.some.injEq] at h
    subst h
    exact ⟨rfl, rfl, rfl, rfl, rfl, rfl, rfl⟩
  | some rows =>
    simp only [parse_ck_results_from_temp] at h
    split at h
    · simp only [Option.some.injEq] at h
      subst h
      exact ⟨rfl, rfl, rfl, rfl, rfl, rfl, rfl⟩
    · split at h
      · simp only [Option.some.injEq] at h
        subst h
        exact ⟨rfl, rfl, rfl, rfl, rfl, rfl, rfl⟩
      · exact absurd h (by simp)

/-- Witness for C9 at the absent-table input. -/
theorem c9_placeholder_fields_zero_witness :
    zeroMetrics.total_methods = 0 ∧ zeroMetrics.total_fields = 0 ∧
    zeroMetrics.total_variables = 0 ∧ zeroMetrics.avg_wmc = 0 ∧
    zeroMetrics.avg_noc = 0 ∧ zeroMetrics.avg_rfc = 0 ∧
    zeroMetrics.avg_cc = 0 :=
  c9_placeholder_fields_zero none zeroMetrics rfl

/-! ## Archive download attempts: `download_repository_zip` (main.py 185-421)

The download of the "main"-branch archive either returns a response
with some HTTP status, or raises `urllib.error.HTTPError` with a code,
or raises some other exception.  Only an `HTTPError` with code 404
reaches the fallback that retries the "master" branch (main.py
352-414); every other failure reaches `return None` with no second
attempt.  This embedding records the sequence of branch names tried
and whether a download stream succeeded. -/

/-- Outcome of one `urllib.request.urlopen` call: a returned response
with an HTTP status code, a raised `HTTPError` with a code, or any
other raised exception (URLError, timeout, ...). -/
inductive HttpOutcome where
  | status : ℕ → HttpOutcome
  | httpError : ℕ → HttpOutcome
  | otherError : HttpOutcome
deriving DecidableEq

/-- The attempt structure of `download_repository_zip`: given the
outcome of the "main" request and (if reached) of the "master"
request, the list of branches tried in order, and whether an archive
was successfully downloaded (status 200). -/
def downloadZipAttempts (mainR masterR : HttpOutcome) :
    List String × Bool :=
  match mainR with
  | HttpOutcome.status 200 => (["main"], true)
  | HttpOutcome.status _ => (["main"], false)
  | HttpOutcome.httpError 404 =>
    match masterR with
    | HttpOutcome.status 200 => (["main", "master"], true)
    | _ => (["main", "master"], false)
  | HttpOutcome.httpError _ => (["main"], false)
  | HttpOutcome.otherError => (["main"], false)

/-- Claim C4: a download failing with a not-found (404) HTTPError on the
"main" branch URL is retried exactly once against the "master" branch
URL before declaring failure; a download failing with any other status
or error makes no fallback attempt and fails immediately. -/
theorem c4_branch_fallback (mainR masterR : HttpOutcome) :
    ((downloadZipAttempts mainR masterR).1 = ["main", "master"] ↔
      mainR = HttpOutcome.httpError 404) ∧
    (mainR ≠ HttpOutcome.httpError 404 →
      (downloadZipAttempts mainR masterR).1 = ["main"] ∧
      (mainR ≠ HttpOutcome.status 200 →
        (downloadZipAttempts mainR masterR).2 = false)) := by
  cases mainR with
  | status c =>
    by_cases hc : c = 200
    · subst hc
      refine ⟨by simp [downloadZipAttempts], fun _ => ⟨rfl, fun hn => absurd rfl hn⟩⟩
    · constructor
      · rw [downloadZipAttempts.eq_def]
        split <;> simp_all
      · intro _
        rw [downloadZipAttempts.eq_def]
        split <;> simp_all
  | httpError c =>
    by_cases hc : c = 404
    · subst hc
      cases masterR with
      | status d =>
        by_cases hd : d = 200
        · subst hd; exact ⟨by simp [downloadZipAttempts], fun hn => absurd rfl hn⟩
        · refine ⟨?_, fun hn => absurd rfl hn⟩
          rw [downloadZipAttempts.eq_def]
          split <;> simp_all
      | httpError d => exact ⟨by simp [downloadZipAttempts], fun hn => absurd rfl hn⟩
      | otherError => exact ⟨by simp [downloadZipAttempts], fun hn => absurd rfl hn⟩
    · constructor
      · rw [downloadZipAttempts.eq_def]
        split <;> simp_all
      · intro _
        rw [downloadZipAttempts.eq_def]
        split <;> simp_all
  | otherError =>
    exact ⟨by simp [downloadZipAttempts], fun _ => ⟨rfl, fun _ => rfl⟩⟩

/-- Witness for C4: a 404 on "main" followed by a failing "master"
attempt tries exactly the branches main then master; a 500 HTTPError
on "main" tries only main and fails. -/
theorem c4_branch_fallback_witness :
    (downloadZipAttempts (HttpOutcome.httpError 404) HttpOutcome.otherError).1 =
      ["main", "master"] ∧
    (downloadZipAttempts (HttpOutcome.httpError 500) HttpOutcome.otherError).1 =
      ["main"] ∧
    (downloadZipAttempts (HttpOutcome.httpError 500) HttpOutcome.otherError).2 =
      false :=
  ⟨(c4_branch_fallback (HttpOutcome.httpError 404) HttpOutcome.otherError).1.mpr rfl,
    ((c4_branch_fallback (HttpOutcome.httpError 500) HttpOutcome.otherError).2
      (by decide)).1,
    ((c4_branch_fallback (HttpOutcome.httpError 500) HttpOutcome.otherError).2
      (by decide)).2 (by decide)⟩

/-! ## Cleanup totality: `cleanup_repo` and `cleanup` (main.py 709-731)

Each function wraps its removal in `try ... except Exception`.  We
embed the body as an `Except`-valued computation ("error" = the body
raises, e.g. `shutil.rmtree` fails) and the actual function as the
body with the handler applied, then prove the handled function never
propagates an error. -/

/-- Body of `cleanup_repo` without its handler: `pathGiven` = the
argument is truthy, `pathExists` = `os.path.exists(repo_path)`,
`rmFails` = `shutil.rmtree` raises.  `Except.ok (some true)` models
`return True`, `Except.ok none` models falling off the end
(`return None`). -/
def cleanupRepoBody (pathGiven pathExists rmFails : Bool) :
    Except Unit (Option Bool) :=
  if pathGiven && pathExists then
    if rmFails then Except.error () else Except.ok (some true)
  else Except.ok none

/-- `cleanup_repo` (main.py 709-720): body plus the `except Exception`
handler, which prints and `return False`. -/
def cleanup_repo (pathGiven pathExists rmFails : Bool) :
    Except Unit (Option Bool) :=
  match cleanupRepoBody pathGiven pathExists rmFails with
  | Except.ok v => Except.ok v
  | Except.error _ => Except.ok (some false)

/-- Body of `cleanup` without its handler: removal of the whole temp
directory. -/
def cleanupBody (dirExists rmFails : Bool) : Except Unit Unit :=
  if dirExists then
    if rmFails then Except.error () else Except.ok ()
  else Except.ok ()

/-- `cleanup` (main.py 722-731): body plus the `except Exception`
handler, which only prints. -/
def cleanup (dirExists rmFails : Bool) : Except Unit Unit :=
  match cleanupBody dirExists rmFails with
  | Except.ok v => Except.ok v
  | Except.error _ => Except.ok ()

/-- Claim C10: the per-repository cleanup and the full-pipeline cleanup
are total — for every filesystem state neither propagates an exception
to its caller, and when the removal raises, `cleanup_repo` returns
False — so a failed removal never aborts the pipeline. -/
theorem c10_cleanup_never_raises :
    (∀ p e r : Bool, (cleanup_repo p e r).isOk = true) ∧
    (∀ e r : Bool, (cleanup e r).isOk = true) ∧
    cleanup_repo true true true = Except.ok (some false) :=
  ⟨fun p e r => by cases p <;> cases e <;> cases r <;> rfl,
    fun e r => by cases e <;> cases r <;> rfl,
    rfl⟩

/-! ## Selective extraction (main.py 231-272)

On Windows (`self.temp_dir = "t"`), each archive entry is extracted
only if it passes the path-length, name-length, nesting-depth,
character and extension filters; on other systems `extractall`
extracts every entry unfiltered.  `os.path.join(self.temp_dir,
member.filename)` is one separator longer than the two parts. -/

/-- One entry of the downloaded archive. -/
structure ZipMember where
  filename : String
  isDir : Bool
deriving DecidableEq

/-- The characters the Windows filter rejects (main.py 254). -/
def problematicChars : List Char := ['<', '>', ':', '"', '|', '?', '*']

/-- The extension allow-list (main.py 262), lower-cased. -/
def allowedExts : List (List Char) :=
  [".java".toList, ".xml".toList, ".properties".toList, ".gradle".toList,
    ".pom".toList, ".kt".toList, ".scala".toList, []]

/-- The characters of a path after its last slash (the basename, as
`os.path.splitext` isolates it for a zip entry name). -/
def afterLastSlash (l : List Char) : List Char :=
  (l.reverse.takeWhile fun c => c ≠ '/').reverse

/-- The extension produced by `os.path.splitext(...)[1]`: everything
from the last dot of the basename, unless every character before that
dot is itself a dot (leading dots never start an extension). -/
def splitextExt (name : List Char) : List Char :=
  let base := afterLastSlash name
  let r := base.reverse
  if base.contains '.' then
    let fromDot := r.dropWhile fun c => c ≠ '.'
    if (fromDot.drop 1).any fun c => c ≠ '.' then
      '.' :: (r.takeWhile fun c => c ≠ '.').reverse
    else []
  else []

/-- `len(os.path.join(self.temp_dir, member.filename))`. -/
def fullPathLen (tempDir : String) (m : ZipMember) : ℕ :=
  tempDir.length + 1 + m.filename.length

/-- The per-entry Windows filter of the extraction loop (main.py
236-265): each `continue` becomes `false`; an entry surviving every
check is extracted. -/
def windowsShouldExtract (tempDir : String) (m : ZipMember) : Bool :=
  if 220 < fullPathLen tempDir m then false
  else if 180 < m.filename.length then false
  else if 12 < m.filename.toList.count '/' then false
  else if problematicChars.any (fun c => m.filename.toList.contains c) then false
  else if m.isDir then true
  else allowedExts.contains ((splitextExt m.filename.toList).map Char.toLower)

/-- The set of entries the extraction step materializes (main.py
233-272): the filtered entries on Windows, the whole archive
elsewhere. -/
def extractedMembers (isWindows : Bool) (tempDir : String)
    (members : List ZipMember) : List ZipMember :=
  if isWindows then members.filter (windowsShouldExtract tempDir) else members

/-- Claim C6: on the short-path-limited filesystem (Windows) an archive
entry whose fully joined destination path is 250 characters long is
skipped during extraction (250 exceeds the 220-character ceiling),
while on a filesystem without that limit the same entry is extracted
as part of the unfiltered full-archive extraction. -/
theorem c6_long_path_skipped_on_windows (tempDir : String) (m : ZipMember)
    (ms : List ZipMember) (hlen : fullPathLen tempDir m = 250)
    (hm : m ∈ ms) :
    m ∉ extractedMembers true tempDir ms ∧
    m ∈ extractedMembers false tempDir ms := by
  constructor
  · simp only [extractedMembers, if_pos]
    intro hmem
    have hs := (List.mem_filter.mp hmem).2
    rw [windowsShouldExtract, hlen] at hs
    simp at hs
  · simpa [extractedMembers] using hm

set_option maxRecDepth 4000 in
/-- Witness for C6: a 248-character entry name under the one-character
Windows scratch directory "t" joins to a 250-character path. -/
theorem c6_long_path_skipped_on_windows_witness :
    fullPathLen "t" ⟨String.mk (List.replicate 248 'a'), false⟩ = 250 ∧
    (⟨String.mk (List.replicate 248 'a'), false⟩ : ZipMember) ∈
      [(⟨String.mk (List.replicate 248 'a'), false⟩ : ZipMember)] ∧
    (⟨String.mk (List.replicate 248 'a'), false⟩ : ZipMember) ∉
      extractedMembers true "t"
        [⟨String.mk (List.replicate 248 'a'), false⟩] ∧
    (⟨String.mk (List.replicate 248 'a'), false⟩ : ZipMember) ∈
      extractedMembers false "t"
        [⟨String.mk (List.replicate 248 'a'), false⟩] := by
  have hlen : fullPathLen "t" ⟨String.mk (List.replicate 248 'a'), false⟩ = 250 := by
    have h1 : (String.mk (List.replicate 248 'a')).length = 248 := by
      show (List.replicate 248 'a').length = 248
      simp
    have h2 : ("t" : String).length = 1 := rfl
    simp only [fullPathLen, h1, h2]
  have hm : (⟨String.mk (List.replicate 248 'a'), false⟩ : ZipMember) ∈
      [(⟨String.mk (List.replicate 248 'a'), false⟩ : ZipMember)] :=
    List.mem_singleton.mpr rfl
  exact ⟨hlen, hm,
    (c6_long_path_skipped_on_windows "t" _ _ hlen hm).1,
    (c6_long_path_skipped_on_windows "t" _ _ hlen hm).2⟩

/-! ## Incremental persistence: `append_to_csv` (main.py 614-634)

The durable CSV is modelled as `none` (the file does not exist) or
`some` of its list of rows, each row a list of cell strings.
`csv.DictWriter` emits, for the header `writer.writeheader()`, the
`fieldnames` in order, and for `writer.writerow(d)` the values
`d[f]` for `f` in `fieldnames`, in order. -/

/-- The merged repository + metrics dictionary built in
`process_single_repository` (main.py 582-593), with every value in its
CSV string form. -/
structure CombinedRecord where
  name : String
  owner : String
  url : String
  description : String
  stars : String
  age_days : String
  primary_language : String
  total_releases : String
  created_at : String
  total_classes : String
  total_methods : String
  total_fields : String
  total_variables : String
  avg_wmc : String
  cbo : String
  lcom : String
  dit : String
  avg_noc : String
  avg_rfc : String
  loc : String
  avg_cc : String

/-- The `fieldnames` list of `append_to_csv` (main.py 618-624). -/
def fieldnames : List String :=
  ["name", "owner", "url", "description", "stars",
    "age_days", "primary_language", "total_releases", "created_at",
    "total_classes", "total_methods", "total_fields", "total_variables",
    "avg_wmc", "cbo", "lcom", "dit", "avg_noc", "avg_rfc",
    "loc", "avg_cc"]

/-- Dictionary lookup `repo_data[f]` for the keys `DictWriter` uses. -/
def recordGet (r : CombinedRecord) (f : String) : String :=
  if f = "name" then r.name
  else if f = "owner" then r.owner
  else if f = "url" then r.url
  else if f = "description" then r.description
  else if f = "stars" then r.stars
  else if f = "age_days" then r.age_days
  else if f = "primary_language" then r.primary_language
  else if f = "total_releases" then r.total_releases
  else if f = "created_at" then r.created_at
  else if f = "total_classes" then r.total_classes
  else if f = "total_methods" then r.total_methods
  else if f = "total_fields" then r.total_fields
  else if f = "total_variables" then r.total_variables
  else if f = "avg_wmc" then r.avg_wmc
  else if f = "cbo" then r.cbo
  else if f = "lcom" then r.lcom
  else if f = "dit" then r.dit
  else if f = "avg_noc" then r.avg_noc
  else if f = "avg_rfc" then r.avg_rfc
  else if f = "loc" then r.loc
  else r.avg_cc

/-- The data row `writer.writerow(repo_data)` emits. -/
def rowOf (r : CombinedRecord) : List String :=
  fieldnames.map (recordGet r)

/-- `append_to_csv` (main.py 614-632): writes a header first when the
file does not yet exist, then appends the one data row. -/
def append_to_csv (file : Option (List (List String)))
    (r : CombinedRecord) : List (List String) :=
  match file with
  | none => [fieldnames, rowOf r]
  | some lines => lines ++ [rowOf r]

/-- Claim C8: every appended row uses the fixed column order name,
owner, url, description, stars, age_days, primary_language,
total_releases, created_at, total_classes, total_methods,
total_fields, total_variables, avg_wmc, cbo, lcom, dit, avg_noc,
avg_rfc, loc, avg_cc, and a header row in that order is written if and
only if the file does not yet exist at the time of the append. -/
theorem c8_fixed_column_order (r : CombinedRecord)
    (lines : List (List String)) :
    fieldnames =
      ["name", "owner", "url", "description", "stars",
        "age_days", "primary_language", "total_releases", "created_at",
        "total_classes", "total_methods", "total_fields", "total_variables",
        "avg_wmc", "cbo", "lcom", "dit", "avg_noc", "avg_rfc",
        "loc", "avg_cc"] ∧
    rowOf r =
      [r.name, r.owner, r.url, r.description, r.stars,
        r.age_days, r.primary_language, r.total_releases, r.created_at,
        r.total_classes, r.total_methods, r.total_fields, r.total_variables,
        r.avg_wmc, r.cbo, r.lcom, r.dit, r.avg_noc, r.avg_rfc,
        r.loc, r.avg_cc] ∧
    append_to_csv none r = [fieldnames, rowOf r] ∧
    append_to_csv (some lines) r = lines ++ [rowOf r] :=
  ⟨rfl, rfl, rfl, rfl⟩

/-! ## Directory resolution and per-repository processing
(main.py 185-350, 552-612)

The scratch area (`self.temp_dir`) is modelled as the list of its
top-level entry names.  `download_repository_zip` first clears the
scratch area completely (main.py 192-201), downloads and extracts the
archive (its top-level directories land in the scratch area), then
resolves the extracted root by the five strategies of main.py 285-337
and renames it to the repository's local identifier.  This embeds the
non-Windows branch (full `extractall`); the Windows branch differs
only by the per-entry filter embedded above.  String helpers mirror
the Python operations used there. -/

/-- Does `needle` occur at the start of the second list? -/
def seqStartsWith : List Char → List Char → Bool
  | [], _ => true
  | _ :: _, [] => false
  | a :: as, b :: bs => a == b && seqStartsWith as bs

/-- Python substring test `needle in hay` on character lists. -/
def seqContains (needle : List Char) : List Char → Bool
  | [] => seqStartsWith needle []
  | c :: cs => seqStartsWith needle (c :: cs) || seqContains needle cs

/-- Python `needle in hay` on strings. -/
def pyIn (needle hay : String) : Bool :=
  seqContains needle.toList hay.toList

/-- Python `str.split(sep)` (for a one-character separator). -/
def splitOnChar (sep : Char) : List Char → List (List Char)
  | [] => [[]]
  | c :: cs =>
    if c == sep then [] :: splitOnChar sep cs
    else
      match splitOnChar sep cs with
      | g :: gs => (c :: g) :: gs
      | [] => [[c]]

/-- `repo_name.split('_')` (main.py 306). -/
def pySplitUnderscore (s : String) : List String :=
  (splitOnChar '_' s.toList).map fun l => String.mk l

/-- `repo_name.replace('_', '-')` (main.py 289). -/
def pyReplaceUnderscore (s : String) : String :=
  String.mk (s.toList.map fun c => if c == '_' then '-' else c)

/-- Python `str.lower()` (ASCII). -/
def pyLower (s : String) : String :=
  String.mk (s.toList.map Char.toLower)

/-- Python `d.startswith('.')` (main.py 334). -/
def startsWithDot (s : String) : Bool :=
  match s.toList with
  | [] => false
  | c :: _ => c == '.'

/-- The candidate directory names of strategy 1 (main.py 290-296). -/
def possibleNames (repoName : String) : List String :=
  let repoClean := pyReplaceUnderscore repoName
  [repoClean ++ "-main", repoClean ++ "-master", repoClean ++ "-develop",
    repoClean, repoName]

/-- Strategy 1: first candidate name present among the extracted
directories (main.py 298-302). -/
def strategy1 (repoName : String) (allDirs : List String) : Option String :=
  (possibleNames repoName).find? fun p => allDirs.contains p

/-- Strategy 2: a directory containing the repository-name fragment and
either the owner fragment or a branch-name fragment (main.py 304-313). -/
def strategy2 (repoName : String) (allDirs : List String) : Option String :=
  match pySplitUnderscore repoName with
  | owner :: nm :: _ =>
    allDirs.find? fun d =>
      pyIn nm d && (pyIn owner d || pyIn "main" d || pyIn "master" d)
  | _ => none

/-- Strategy 3: a directory whose lower-cased name contains the
lower-cased repository-name fragment (main.py 315-325). -/
def strategy3 (repoName : String) (allDirs : List String) : Option String :=
  match pySplitUnderscore repoName with
  | _ :: nm :: _ =>
    allDirs.find? fun d => pyIn (pyLower nm) (pyLower d)
  | _ => none

/-- Strategy 4: the sole extracted directory, when there is exactly one
(main.py 327-330). -/
def strategy4 (allDirs : List String) : Option String :=
  match allDirs with
  | [d] => some d
  | _ => none

/-- Strategy 5: the first non-hidden extracted directory
(main.py 332-337). -/
def strategy5 (allDirs : List String) : Option String :=
  (allDirs.filter fun d => !startsWithDot d).head?

/-- The ordered directory-resolution strategies (main.py 285-337):
first match wins; no match fails the extraction. -/
def findExtractedDir (repoName : String) (allDirs : List String) :
    Option String :=
  (strategy1 repoName allDirs).orElse fun _ =>
  (strategy2 repoName allDirs).orElse fun _ =>
  (strategy3 repoName allDirs).orElse fun _ =>
  (strategy4 allDirs).orElse fun _ =>
  strategy5 allDirs

/-- The scratch area: top-level entry names of `self.temp_dir`. -/
abbrev Scratch := List String

/-- A successfully downloaded archive, by the top-level directories its
extraction materializes. -/
structure Archive where
  topDirs : List String
deriving DecidableEq

/-- `download_repository_zip` (main.py 185-421) over the scratch state:
`resp = none` means every download attempt failed (HTTP error on both
branches, network fault, ...), `resp = some a` means an archive was
downloaded and extracted.  The prior scratch content is cleared
unconditionally first (main.py 192-201), so the result never depends
on it.  Returns the resolved repository path (its name inside the
scratch area) or `none`, and the scratch area after the call. -/
def download_repository_zip (repoName : String) (resp : Option Archive)
    (_prior : Scratch) : Option String × Scratch :=
  match resp with
  | none => (none, [])
  | some a =>
    match findExtractedDir repoName a.topDirs with
    | none => (none, a.topDirs)
    | some d =>
      if d = repoName then (some repoName, a.topDirs)
      else (some repoName, (a.topDirs.erase d) ++ [repoName])

/-- Outcome of the `try` body of `process_single_repository` (main.py
576-612): `run_ck_analysis` returned a metrics dict, returned `None`
(tool missing, non-zero exit, timeout, parse error — it catches its own
exceptions), or the body raised an unexpected exception. -/
inductive AnalysisOutcome where
  | metrics : QualityMetrics → AnalysisOutcome
  | failed : AnalysisOutcome
  | raised : AnalysisOutcome
deriving DecidableEq

/-- The scratch-state effect of `cleanup_repo(repo_path)` (main.py
709-720): the directory is removed when present. -/
def cleanup_repo_effect (repoPath : String) (s : Scratch) : Scratch :=
  s.erase repoPath

/-- `process_single_repository` (main.py 552-612): download, then — only
when the download returned a path — analyze and call `cleanup_repo` on
each of the three exit paths of the `try`.  Returns the combined
result (its metrics part), the scratch area after the iteration, and
the number of `cleanup_repo` invocations. -/
def process_single_repository (repoName : String) (resp : Option Archive)
    (outcome : AnalysisOutcome) (prior : Scratch) :
    Option QualityMetrics × Scratch × ℕ :=
  match download_repository_zip repoName resp prior with
  | (none, s) => (none, s, 0)
  | (some p, s) =>
    match outcome with
    | AnalysisOutcome.metrics m => (some m, cleanup_repo_effect p s, 1)
    | AnalysisOutcome.failed => (none, cleanup_repo_effect p s, 1)
    | AnalysisOutcome.raised => (none, cleanup_repo_effect p s, 1)

/-- One iteration of the loop of `analyze_repositories_with_ck`
(main.py 677-699): the row is appended exactly when the result is
truthy.  Returns the result, scratch state, cleanup count, and the
row count of the durable table after the iteration. -/
def analyzeIteration (repoName : String) (resp : Option Archive)
    (outcome : AnalysisOutcome) (prior : Scratch) (rows : ℕ) :
    Option QualityMetrics × Scratch × ℕ × ℕ :=
  match process_single_repository repoName resp outcome prior with
  | (some m, s, k) => (some m, s, k, rows + 1)
  | (none, s, k) => (none, s, k, rows)

/-- Counterexample for C2: when acquisition fails (every download
attempt fails), `process_single_repository` returns at main.py 573-574
without invoking `cleanup_repo` at all — the cleanup count of the
iteration is 0, not 1. -/
theorem c2_no_cleanup_on_acquisition_failure :
    process_single_repository "owner_repo" none AnalysisOutcome.failed [] =
      (none, [], 0) := by
  decide

/-- Claim C2 (amended): on every exit path of an iteration on which
acquisition and extraction succeeded — normal completion, analysis
failure, unexpected exception — `cleanup_repo` is invoked exactly
once before the next repository's acquisition begins; on
acquisition/extraction failure it is not invoked at all (the scratch
area is instead cleared at the start of the next acquisition). -/
theorem c2_cleanup_exactly_once_when_acquired (repoName : String)
    (resp : Option Archive) (outcome : AnalysisOutcome) (prior : Scratch) :
    ((download_repository_zip repoName resp prior).1.isSome = true →
      (process_single_repository repoName resp outcome prior).2.2 = 1) ∧
    ((download_repository_zip repoName resp prior).1 = none →
      (process_single_repository repoName resp outcome prior).2.2 = 0) := by
  rcases h : download_repository_zip repoName resp prior with ⟨o, s⟩
  cases o with
  | none =>
    refine ⟨fun hs => ?_, fun _ => ?_⟩
    · simp at hs
    · simp [process_single_repository, h]
  | some p =>
    refine ⟨fun _ => ?_, fun hn => ?_⟩
    · cases outcome <;> simp [process_single_repository, h]
    · simp at hn

/-- Witness for C2 (amended): a successful acquisition of an archive
extracting to `owner-repo-main`, with the CK analysis failing, calls
`cleanup_repo` exactly once. -/
theorem c2_cleanup_exactly_once_when_acquired_witness :
    (download_repository_zip "owner_repo" (some ⟨["owner-repo-main"]⟩)
      []).1.isSome = true ∧
    (process_single_repository "owner_repo" (some ⟨["owner-repo-main"]⟩)
      AnalysisOutcome.failed []).2.2 = 1 :=
  ⟨by decide,
    (c2_cleanup_exactly_once_when_acquired "owner_repo"
      (some ⟨["owner-repo-main"]⟩) AnalysisOutcome.failed []).1 (by decide)⟩

/-- Counterexample for C3: an archive whose extraction yields only the
hidden directories `.a` and `.b` defeats all five resolution
strategies, so the iteration fails — and both directories survive
under the scratch area after the iteration (they are removed only by
the next acquisition's clearing or the final cleanup). -/
theorem c3_residual_dirs_after_failed_iteration :
    process_single_repository "owner_repo" (some ⟨[".a", ".b"]⟩)
      AnalysisOutcome.failed [] = (none, [".a", ".b"], 0) ∧
    (process_single_repository "owner_repo" (some ⟨[".a", ".b"]⟩)
      AnalysisOutcome.failed []).2.1 ≠ ([] : List String) := by
  constructor <;> decide

/-- Claim C3 (amended): a repository whose acquisition, extraction, or
analysis fails appends no row to the durable output table (no
placeholder row) and a successfully analyzed repository appends
exactly one row; however, residual directories may survive under the
scratch area after a failed iteration — the scratch area is only
guaranteed clean again because the next acquisition clears it
unconditionally (the download result never depends on the prior
scratch content). -/
theorem c3_rows_appended_iff_success (repoName : String)
    (resp : Option Archive) (outcome : AnalysisOutcome) (prior : Scratch)
    (rows : ℕ) :
    ((analyzeIteration repoName resp outcome prior rows).1 = none →
      (analyzeIteration repoName resp outcome prior rows).2.2.2 = rows) ∧
    ((analyzeIteration repoName resp outcome prior rows).1.isSome = true →
      (analyzeIteration repoName resp outcome prior rows).2.2.2 = rows + 1) ∧
    download_repository_zip repoName resp prior =
      download_repository_zip repoName resp [] := by
  refine ⟨?_, ?_, rfl⟩ <;>
  · rcases h : process_single_repository repoName resp outcome prior with ⟨o, s, k⟩
    cases o <;> simp [analyzeIteration, h]

/-- Witness for C3 (amended): a failed analysis on a successfully
extracted archive appends no row (the table keeps its 5 rows). -/
theorem c3_rows_appended_iff_success_witness :
    (analyzeIteration "owner_repo" (some ⟨["owner-repo-main"]⟩)
      AnalysisOutcome.failed [] 5).1 = none ∧
    (analyzeIteration "owner_repo" (some ⟨["owner-repo-main"]⟩)
      AnalysisOutcome.failed [] 5).2.2.2 = 5 :=
  ⟨by decide,
    (c3_rows_appended_iff_success "owner_repo" (some ⟨["owner-repo-main"]⟩)
      AnalysisOutcome.failed [] 5).1 (by decide)⟩

/-! ## Paginated discovery: `collect_repositories_data` (main.py 137-183)

One API response page carries a list of nodes and a next-page flag.
A node either processes cleanly into a repository record (`valid`) or
raises in `process_repository_data` and is skipped with a warning.
The successive responses of the run are modelled as a list of pages;
an exhausted list models a failed request (which breaks the loop).
The inner `for` appends valid nodes and stops once `collected`
reaches the limit; the outer `while` stops when the limit is reached,
the response declares no next page, or the request fails. -/

/-- One node of a search response page: `valid` is whether
`process_repository_data` succeeds on it, `repoId` identifies the
repository it describes. -/
structure RepoNode where
  valid : Bool
  repoId : ℕ
deriving DecidableEq

/-- One search response page. -/
structure SearchPage where
  nodes : List RepoNode
  hasNextPage : Bool
deriving DecidableEq

/-- The inner `for repo in repos` loop (main.py 159-173): appends each
cleanly processed node until `collected` reaches `limit`; returns the
appended nodes and the new `collected`. -/
def processNodes (limit : ℕ) : ℕ → List RepoNode → List RepoNode × ℕ
  | collected, [] => ([], collected)
  | collected, n :: ns =>
    if limit ≤ collected then ([], collected)
    else if n.valid then
      let r := processNodes limit (collected + 1) ns
      (n :: r.1, r.2)
    else processNodes limit collected ns

/-- The outer `while collected < limit` loop (main.py 148-180),
consuming one response page per round. -/
def collectGo (limit : ℕ) : ℕ → List SearchPage → List RepoNode
  | _, [] => []
  | collected, p :: rest =>
    if collected < limit then
      let pr := processNodes limit collected p.nodes
      if !p.hasNextPage || limit ≤ pr.2 then pr.1
      else pr.1 ++ collectGo limit pr.2 rest
    else []

/-- `collect_repositories_data` (main.py 137-183). -/
def collect_repositories_data (limit : ℕ) (pages : List SearchPage) :
    List RepoNode :=
  collectGo limit 0 pages

/-- All cleanly processable nodes of all pages, in API order. -/
def allValidNodes (pages : List SearchPage) : List RepoNode :=
  (pages.map fun p => p.nodes.filter fun n => n.valid).flatten

/-- The repositories available to the run: the valid nodes of the pages
up to and including the first one that declares no next page (the
source is exhausted there). -/
def availableNodes : List SearchPage → List RepoNode
  | [] => []
  | p :: rest =>
    (p.nodes.filter fun n => n.valid) ++
      (if p.hasNextPage then availableNodes rest else [])

theorem processNodes_snd (limit : ℕ) (ns : List RepoNode) (collected : ℕ) :
    (processNodes limit collected ns).2 =
      collected + (processNodes limit collected ns).1.length := by
  induction ns generalizing collected with
  | nil => simp [processNodes]
  | cons n ns ih =>
    simp only [processNodes]
    split
    · simp
    · split
      · simp [ih (collected + 1)]; ring
      · simpa using ih collected

theorem processNodes_le (limit : ℕ) (ns : List RepoNode) (collected : ℕ)
    (h : collected ≤ limit) : (processNodes limit collected ns).2 ≤ limit := by
  induction ns generalizing collected with
  | nil => simpa [processNodes] using h
  | cons n ns ih =>
    simp only [processNodes]
    split
    · simpa using h
    · rename_i hlt
      split
      · exact ih (collected + 1) (by omega)
      · exact ih collected h

theorem processNodes_sublist (limit : ℕ) (ns : List RepoNode)
    (collected : ℕ) :
    List.Sublist (processNodes limit collected ns).1
      (ns.filter fun n => n.valid) := by
  induction ns generalizing collected with
  | nil => simp [processNodes]
  | cons n ns ih =>
    simp only [processNodes]
    split
    · simp
    · split
      · rename_i hv
        simp only [List.filter_cons, hv, if_pos]
        exact (ih (collected + 1)).cons₂ n
      · rename_i hv
        rw [List.filter_cons, if_neg (by simpa using hv)]
        exact ih collected

theorem processNodes_all (limit : ℕ) (ns : List RepoNode) (collected : ℕ)
    (h : collected + (ns.filter fun n => n.valid).length ≤ limit) :
    processNodes limit collected ns =
      (ns.filter fun n => n.valid,
        collected + (ns.filter fun n => n.valid).length) := by
  induction ns generalizing collected with
  | nil => simp [processNodes]
  | cons n ns ih =>
    by_cases hv : n.valid
    · have hlen : 0 < ((n :: ns).filter fun n => n.valid).length := by
        simp [List.filter_cons, hv]
      simp only [processNodes]
      rw [if_neg (by omega), if_pos hv]
      have hrec := ih (collected + 1) (by
        simp only [List.filter_cons, hv, if_pos] at h
        simp only [List.length_cons] at h
        omega)
      simp [hrec, List.filter_cons, hv]
      omega
    · simp only [processNodes]
      have hfil : ((n :: ns).filter fun n => n.valid) =
          ns.filter fun n => n.valid := by
        simp [List.filter_cons, hv]
      rw [hfil] at h ⊢
      rw [if_neg hv]
      split
      · rename_i hle
        have hlen0 : (ns.filter fun n => n.valid).length = 0 := by omega
        have hnil : (ns.filter fun n => n.valid) = [] :=
          List.eq_nil_of_length_eq_zero hlen0
        simp [hnil]
      · exact ih collected h

theorem collectGo_length (limit : ℕ) (pages : List SearchPage)
    (collected : ℕ) (h : collected ≤ limit) :
    collected + (collectGo limit collected pages).length ≤ limit := by
  induction pages generalizing collected with
  | nil => simpa [collectGo] using h
  | cons p rest ih =>
    simp only [collectGo]
    split
    · rename_i hlt
      split
      · rw [← processNodes_snd]
        exact processNodes_le limit p.nodes collected (Nat.le_of_lt hlt)
      · have h2 := processNodes_le limit p.nodes collected (Nat.le_of_lt hlt)
        have h3 := ih (processNodes limit collected p.nodes).2 h2
        have h4 := processNodes_snd limit p.nodes collected
        simp only [List.length_append]
        omega
    · simpa using h

theorem collectGo_sublist (limit : ℕ) (pages : List SearchPage)
    (collected : ℕ) :
    List.Sublist (collectGo limit collected pages) (allValidNodes pages) := by
  induction pages generalizing collected with
  | nil => simp [collectGo, allValidNodes]
  | cons p rest ih =>
    simp only [collectGo, allValidNodes, List.map_cons, List.flatten_cons]
    split
    · split
      · exact (processNodes_sublist limit p.nodes collected).trans
          (List.sublist_append_left _ _)
      · exact List.Sublist.append
          (processNodes_sublist limit p.nodes collected)
          (ih (processNodes limit collected p.nodes).2)
    · exact List.nil_sublist _

theorem collectGo_all (limit : ℕ) (pages : List SearchPage) (collected : ℕ)
    (h : collected + (availableNodes pages).length ≤ limit) :
    collectGo limit collected pages = availableNodes pages := by
  induction pages generalizing collected with
  | nil => simp [collectGo, availableNodes]
  | cons p rest ih =>
    by_cases hlt : collected < limit
    · have hF : collected + (p.nodes.filter fun n => n.valid).length ≤ limit := by
        simp only [availableNodes, List.length_append] at h
        omega
      have hpn := processNodes_all limit p.nodes collected hF
      simp only [collectGo, if_pos hlt, hpn]
      cases hnp : p.hasNextPage with
      | false =>
        simp [availableNodes, hnp]
      | true =>
        simp only [availableNodes, hnp, if_true, Bool.not_true, Bool.false_or]
        have hlen : collected +
            ((p.nodes.filter fun n => n.valid).length +
              (availableNodes rest).length) ≤ limit := by
          simp only [availableNodes, hnp, if_true, List.length_append] at h
          omega
        split
        · rename_i hstop
          have hstop2 : limit ≤
              collected + (p.nodes.filter fun n => n.valid).length := by
            simpa using hstop
          have hrest : (availableNodes rest).length = 0 := by omega
          have hnil : availableNodes rest = [] :=
            List.eq_nil_of_length_eq_zero hrest
          simp [hnil]
        · have hrec := ih
            (collected + (p.nodes.filter fun n => n.valid).length)
            (by omega)
          rw [hrec]
    · have hzero : (availableNodes (p :: rest)).length = 0 := by omega
      have hnil : availableNodes (p :: rest) = [] :=
        List.eq_nil_of_length_eq_zero hzero
      simp only [collectGo, if_neg hlt, hnil]

/-- Counterexample for C7: a page response repeating the same node
twice makes discovery return that repository twice — the code performs
no deduplication, so the returned sequence is not deduplicated for
every sequence of page responses. -/
theorem c7_duplicate_nodes_not_deduplicated :
    collect_repositories_data 5 [⟨[⟨true, 7⟩, ⟨true, 7⟩], false⟩] =
      [⟨true, 7⟩, ⟨true, 7⟩] ∧
    ¬ (collect_repositories_data 5
        [⟨[⟨true, 7⟩, ⟨true, 7⟩], false⟩]).Nodup := by
  constructor <;> decide

/-- Claim C7 (amended): discovery with N=0 returns an empty sequence;
the result never holds more than N repositories; it preserves the
source order (it is a subsequence of the valid nodes in page order),
stopping at N or when the source is exhausted; and when N is at least
the number of repositories available before exhaustion, exactly those
repositories are returned.  No deduplication is performed, so the
result is deduplicated only when the page responses are. -/
theorem c7_discovery_count_and_order (limit : ℕ) (pages : List SearchPage) :
    collect_repositories_data 0 pages = [] ∧
    (collect_repositories_data limit pages).length ≤ limit ∧
    List.Sublist (collect_repositories_data limit pages)
      (allValidNodes pages) ∧
    ((availableNodes pages).length ≤ limit →
      collect_repositories_data limit pages = availableNodes pages) := by
  refine ⟨?_, ?_, collectGo_sublist limit pages 0,
    fun h => collectGo_all limit pages 0 (by simpa using h)⟩
  · cases pages with
    | nil => rfl
    | cons p rest => simp [collect_repositories_data, collectGo]
  · have hl := collectGo_length limit pages 0 (Nat.zero_le limit)
    simpa using hl

/-- Witness for C7 (amended): two linked pages holding one valid node
each (plus one malformed node) yield exactly the two available
repositories when N=10 exceeds their number. -/
theorem c7_discovery_count_and_order_witness :
    (availableNodes [⟨[⟨true, 1⟩, ⟨false, 2⟩], true⟩,
      ⟨[⟨true, 3⟩], false⟩]).length ≤ 10 ∧
    collect_repositories_data 10 [⟨[⟨true, 1⟩, ⟨false, 2⟩], true⟩,
      ⟨[⟨true, 3⟩], false⟩] =
      availableNodes [⟨[⟨true, 1⟩, ⟨false, 2⟩], true⟩,
        ⟨[⟨true, 3⟩], false⟩] :=
  ⟨by decide,
    (c7_discovery_count_and_order 10 [⟨[⟨true, 1⟩, ⟨false, 2⟩], true⟩,
      ⟨[⟨true, 3⟩], false⟩]).2.2.2 (by decide)⟩
